import Mathlib

/-!
Shallow embedding of `pyo3-derive-backend/src/module.rs` (pyo3 0.6-era derive
backend).  Identifiers are modelled as their display strings, syn syntax-tree
fragments as inductive types carrying exactly the structure the code inspects
(unused payloads become opaque `Nat` tags), Rust panics as `Except.error`, and
the token streams produced by `quote!` as structured records whose fields
mirror the fixed template text of the source.  Code living in the sibling
modules `args.rs`, `method.rs`, `py_method.rs`, `utils.rs` and in the `syn`
crate is not part of this file's source; those functions are threaded through
as an explicit `Externals` record of function parameters, so every theorem
quantifies over their behaviour.
-/

/-- syn::Lit — only the string alternative is inspected by the code. -/
inductive Lit where
  | str (s : String)
  | other (tag : Nat)

mutual
/-- syn::Meta (the result of `Attribute::interpret_meta`). -/
inductive Meta where
  | word (ident : String)
  | list (ident : String) (nested : List NestedMeta)
  | nameValue (ident : String) (l : Lit)

/-- syn::NestedMeta. -/
inductive NestedMeta where
  | meta (m : Meta)
  | lit (l : Lit)
end

/-- syn::Attribute.  The code only ever calls `interpret_meta()` (modelled by
the `meta` field, `none` when interpretation fails) and clones the attribute;
`tag` stands for the remaining raw token payload so that distinct source
attributes stay distinguishable. -/
structure Attribute where
  meta : Option Meta
  tag : Nat

/-- syn::Type — the code only looks at path types, and there only at the
ident of the last path segment. -/
inductive Ty where
  | path (segments : List String)
  | other (tag : Nat)

/-- syn::Pat — the code only destructures `Pat::Ident`. -/
inductive Pat where
  | identP (mutability : Bool) (by_ref : Bool) (ident : String)
  | other (tag : Nat)

/-- syn::FnArg. -/
inductive SynFnArg where
  | selfRef (tag : Nat)
  | selfValue (tag : Nat)
  | captured (pat : Pat) (ty : Ty)
  | ignored (tag : Nat)
  | inferred (tag : Nat)

/-- syn::ReturnType. -/
inductive RustRet where
  | default
  | ty (t : Ty)

/-- args::Argument (defined in args.rs, outside this source file): opaque. -/
inductive Argument where
  | arg (tag : Nat)

/-- method::FnArg — the record built by `wrap_fn_argument`. -/
structure MethodFnArg where
  name : String
  mutability : Bool
  by_ref : Bool
  ty : Ty
  optional : Option Ty
  py : Bool
  reference : Bool

/-- method::FnType — `add_fn_to_module` always uses the `Fn` alternative. -/
inductive FnType where
  | fn
  | other (tag : Nat)

/-- method::FnSpec. -/
structure FnSpec where
  tp : FnType
  attrs : List Argument
  args : List MethodFnArg
  output : Ty

/-- A fragment of generated Rust code (the expression layer of the `quote!`
templates).  `stringify` and `concatM` stand for the `stringify!` and
`concat!` macro invocations the templates emit. -/
inductive GenExpr where
  | ident (s : String)
  | strLit (s : String)
  | litE (l : Lit)
  | path (s : String)
  | stringify (e : GenExpr)
  | concatM (es : List GenExpr)
  | call (f : GenExpr) (args : List GenExpr)
  | methodCall (recv : GenExpr) (m : String) (tyArgs : List String) (args : List GenExpr)
  | orFlags (a b : GenExpr)

/-- The functions `module.rs` imports from its sibling modules and from syn.
They are not part of the embedded source file, so everything is proved for an
arbitrary choice of them.
  * `parse_ident` models `syn::parse_str::<syn::Ident>` (`none` = parse error);
  * `parse_arguments` models `args::parse_arguments`;
  * the remaining fields model the equally named functions of `method.rs`,
    `utils.rs` (`get_doc`) and `py_method.rs`. -/
structure Externals where
  parse_ident : String → Option String
  parse_arguments : List NestedMeta → List Argument
  check_arg_ty_and_optional : String → Ty → Option Ty
  is_ref : String → Ty → Bool
  get_return_info : RustRet → Ty
  get_doc : List Attribute → Bool → GenExpr
  impl_arg_params : FnSpec → GenExpr → GenExpr
  body_to_result : GenExpr → FnSpec → GenExpr

/-- The `unsafe extern "C" fn __wrap(_slf, _args, _kwargs)` template produced
by `function_c_wrapper`, field by field. -/
structure CWrapper where
  wrap_name : String
  params : List (String × String)
  ret_ty : String
  location : GenExpr
  pool_new : GenExpr
  py_acquire : GenExpr
  args_conv : GenExpr
  kwargs_conv : GenExpr
  kwargs_ty : String
  call_names : List String
  cb : GenExpr
  body : GenExpr
  result_conv : GenExpr

/-- pyo3::class::PyMethodType as referenced by the generated code. -/
inductive PyMethodType where
  | pyCFunction (w : CWrapper)
  | pyCFunctionWithKeywords (w : CWrapper)

/-- The `_def` literal of the generated wrapper: pyo3::class::PyMethodDef. -/
structure PyMethodDef where
  ml_name : String
  ml_meth : PyMethodType
  ml_flags : GenExpr
  ml_doc : GenExpr

/-- The `fn #function_wrapper_ident(py: ::pyo3::Python) -> ::pyo3::PyObject`
template produced by `add_fn_to_module`, field by field. -/
structure AddFnOut where
  fn_name : String
  param : String × String
  wrapper : CWrapper
  mdef : PyMethodDef
  creation : GenExpr

/-- syn::ItemFn restricted to the parts `module.rs` reads: the attribute
list, the fn ident, the declared inputs and output.  `body` is an opaque tag
for the (never inspected) block of an inner function. -/
structure ItemFn where
  attrs : List Attribute
  ident : String
  inputs : List SynFnArg
  output : RustRet
  body : Nat

/-- A statement of the module function's block.  Original statements are
either inner `fn` items or opaque (`other`); the two statement forms produced
by the `parse_quote!` block of `process_functions_in_module` get their own
constructors: the wrapper-definition item and the
`#module_name.add_wrapped(&#function_wrapper_ident)?;` registration call. -/
inductive Stmt where
  | itemFn (f : ItemFn)
  | wrapperDef (w : AddFnOut)
  | addWrapped (moduleName : String) (wrapperName : String)
  | other (tag : Nat)

/-- One `pub unsafe extern "C"` item as emitted by `py3_init` / `py2_init`. -/
structure CAbiFn where
  no_mangle : Bool
  allow_non_snake_case : Bool
  is_pub : Bool
  is_unsafe : Bool
  extern_abi : Option String
  name : String
  ret : Option String
  body : GenExpr

/-- `py3_init`: the token stream holds exactly one item, the
`PyInit_#name` entry point calling `make_module`. -/
def py3_init (fnname : String) (name : String) (doc : Lit) : List CAbiFn :=
  [{ no_mangle := true
   , allow_non_snake_case := true
   , is_pub := true
   , is_unsafe := true
   , extern_abi := some ("C")
   , name := "PyInit_" ++ name
   , ret := some ("*mut ::pyo3::ffi::PyObject")
   , body := GenExpr.call (GenExpr.path ("::pyo3::derive_utils::make_module"))
       [GenExpr.concatM [GenExpr.stringify (GenExpr.ident name), GenExpr.strLit ("\x00")],
        GenExpr.litE doc, GenExpr.ident fnname] }]

/-- `py2_init`: one `init#name` entry point with no return type, calling the
same `make_module`. -/
def py2_init (fnname : String) (name : String) (doc : Lit) : List CAbiFn :=
  [{ no_mangle := true
   , allow_non_snake_case := true
   , is_pub := true
   , is_unsafe := true
   , extern_abi := some ("C")
   , name := "init" ++ name
   , ret := none
   , body := GenExpr.call (GenExpr.path ("::pyo3::derive_utils::make_module"))
       [GenExpr.concatM [GenExpr.stringify (GenExpr.ident name), GenExpr.strLit ("\x00")],
        GenExpr.litE doc, GenExpr.ident fnname] }]

/-- Does the attribute interpret as `Meta::List` with ident `pyfn`?  (The
pattern guard of the `extract_pyfn_attrs` loop.) -/
def isPyfnList (a : Attribute) : Bool :=
  match a.meta with
  | some (Meta.list i _) => i == "pyfn"
  | _ => false

/-- The shape `extract_pyfn_attrs` accepts without panicking: at least two
nested parameters, the first a `Meta::Word`, the second a string literal. -/
def wellShaped (a : Attribute) : Bool :=
  match a.meta with
  | some (Meta.list _ (NestedMeta.meta (Meta.word _) :: NestedMeta.lit (Lit.str _) :: _)) => true
  | _ => false

/-- The (module name, python name) pair a well-shaped pyfn attribute yields:
its first word and the parse of its second, string-literal, parameter. -/
def pyfnNames (ext : Externals) (a : Attribute) : Option (String × String) :=
  match a.meta with
  | some (Meta.list _ (NestedMeta.meta (Meta.word m) :: NestedMeta.lit (Lit.str s) :: _)) =>
      (ext.parse_ident s).map (fun f => (m, f))
  | _ => none

/-- Folds the name-overwriting discipline of the extraction loop over an
attribute list: each pyfn attribute overwrites the accumulated
(modname, fnname) pair, so the last one wins. -/
def lastNames (ext : Externals) : List Attribute → Option String × Option String → Option String × Option String
  | [], p => p
  | a :: rest, p =>
      lastNames ext rest
        (if isPyfnList a then
           match pyfnNames ext a with
           | some q => (some q.1, some q.2)
           | none => p
         else p)

/-- The mutable locals of `extract_pyfn_attrs`. -/
structure ExtractSt where
  new_attrs : List Attribute
  fnname : Option String
  modname : Option String
  fn_attrs : List Argument

/-- One iteration of the `for attr in attrs.iter()` loop of
`extract_pyfn_attrs`.  Rust panics become `Except.error`; the panic order of
the source (length check, first parameter, second parameter, `unwrap` of
`parse_str`) is preserved. -/
def extract_step (ext : Externals) (st : ExtractSt) (attr : Attribute) : Except String ExtractSt :=
  match attr.meta with
  | some (Meta.list i nested) =>
      if i == "pyfn" then
        match nested with
        | m0 :: m1 :: rest =>
            (match m0 with
             | NestedMeta.meta (Meta.word m) =>
                 (match m1 with
                  | NestedMeta.lit (Lit.str s) =>
                      (match ext.parse_ident s with
                       | some f =>
                           Except.ok { st with
                             modname := some m
                             fnname := some f
                             fn_attrs := if rest.isEmpty then st.fn_attrs else ext.parse_arguments rest }
                       | none => Except.error ("called unwrap on an Err value"))
                  | _ => Except.error ("The second parameter of pyfn must be a Literal"))
             | _ => Except.error ("The first parameter of pyfn must be a MetaItem"))
        | _ => Except.error ("can not parse pyfn params")
      else Except.ok { st with new_attrs := st.new_attrs ++ [attr] }
  | _ => Except.ok { st with new_attrs := st.new_attrs ++ [attr] }

/-- The whole `for` loop of `extract_pyfn_attrs`. -/
def extract_loop (ext : Externals) : ExtractSt → List Attribute → Except String ExtractSt
  | st, [] => Except.ok st
  | st, a :: rest =>
      match extract_step ext st a with
      | Except.error e => Except.error e
      | Except.ok st1 => extract_loop ext st1 rest

/-- `extract_pyfn_attrs`: returns the written-back attribute list (the
source assigns `*attrs = new_attrs` before building the result) together with
`Some((modname?, fnname?, fn_attrs))`, i.e. `none` when either name was never
set. -/
def extract_pyfn_attrs (ext : Externals) (attrs : List Attribute) :
    Except String (List Attribute × Option (String × String × List Argument)) :=
  match extract_loop ext { new_attrs := [], fnname := none, modname := none, fn_attrs := [] } attrs with
  | Except.error e => Except.error e
  | Except.ok st =>
      Except.ok (st.new_attrs,
        match st.modname, st.fnname with
        | some m, some f => some (m, f, st.fn_attrs)
        | _, _ => none)

/-- The `cap.ty` test of `wrap_fn_argument`: is the last path segment's ident
`Python`? -/
def isPythonPath : Ty → Bool
  | Ty.path segs => ((segs.getLast?).map (fun seg => seg == "Python")).getD false
  | Ty.other _ => false

/-- `wrap_fn_argument`: self arguments are skipped (`none`), captured
identifier patterns become a `method::FnArg`, everything else panics. -/
def wrap_fn_argument (ext : Externals) (input : SynFnArg) (name : String) :
    Except String (Option MethodFnArg) :=
  match input with
  | SynFnArg.selfRef _ => Except.ok none
  | SynFnArg.selfValue _ => Except.ok none
  | SynFnArg.captured pat ty =>
      (match pat with
       | Pat.identP mutability by_ref id =>
           Except.ok (some
             { name := id
             , mutability := mutability
             , by_ref := by_ref
             , ty := ty
             , optional := ext.check_arg_ty_and_optional name ty
             , py := isPythonPath ty
             , reference := ext.is_ref name ty })
       | Pat.other _ => Except.error ("unsupported argument"))
  | SynFnArg.ignored _ => Except.error ("ignored argument")
  | SynFnArg.inferred _ => Except.error ("inferred argument")

/-- Strips `p` once from the front of `s`, returning the remainder. -/
def stripPrefixL : List Char → List Char → Option (List Char)
  | [], s => some s
  | _ :: _, [] => none
  | a :: as, b :: bs => if a = b then stripPrefixL as bs else none

/-- Fuelled version of Rust's `str::trim_start_matches`: repeatedly strips
the pattern from the front.  Each successful strip of a nonempty pattern
consumes at least one character, so fuel `s.length + 1` computes the true
fixpoint. -/
def trimStartMatchesAux (p : List Char) : Nat → List Char → List Char
  | 0, s => s
  | fuel + 1, s =>
      if p.isEmpty then s
      else
        match stripPrefixL p s with
        | some rest => trimStartMatchesAux p fuel rest
        | none => s

/-- Rust's `str::trim_start_matches`. -/
def trimStartMatches (p s : String) : String :=
  String.mk (trimStartMatchesAux p.data (s.data.length + 1) s.data)

/-- `function_wrapper_ident`: `__pyo3_get_function_` + the fn ident with its
raw-identifier `r#` prefix trimmed. -/
def function_wrapper_ident (name : String) : String :=
  "__pyo3_get_function_" ++ trimStartMatches ("r#") name

/-- `function_c_wrapper`: the `__wrap` template, field by field.  The `cb`
expression is `return_type_into_py_result(#name(#(#names),*))` with the
argument names computed from `spec.args` by position, `_py` for GIL-token
arguments. -/
def function_c_wrapper (ext : Externals) (name : String) (spec : FnSpec) : CWrapper :=
  let names := spec.args.enum.map (fun item => if item.2.py then ("_py") else ("arg") ++ toString item.1)
  let cb := GenExpr.call (GenExpr.path ("::pyo3::ReturnTypeIntoPyResult::return_type_into_py_result"))
      [GenExpr.call (GenExpr.ident name) (names.map GenExpr.ident)]
  { wrap_name := "__wrap"
  , params := [("_slf", "*mut ::pyo3::ffi::PyObject"),
               ("_args", "*mut ::pyo3::ffi::PyObject"),
               ("_kwargs", "*mut ::pyo3::ffi::PyObject")]
  , ret_ty := "*mut ::pyo3::ffi::PyObject"
  , location := GenExpr.concatM [GenExpr.stringify (GenExpr.ident name), GenExpr.strLit ("()")]
  , pool_new := GenExpr.call (GenExpr.path ("::pyo3::GILPool::new")) []
  , py_acquire := GenExpr.call (GenExpr.path ("::pyo3::Python::assume_gil_acquired")) []
  , args_conv := GenExpr.methodCall (GenExpr.ident ("_py")) ("from_borrowed_ptr")
      ["::pyo3::types::PyTuple"] [GenExpr.ident ("_args")]
  , kwargs_conv := GenExpr.methodCall (GenExpr.ident ("_py")) ("from_borrowed_ptr_or_opt")
      [] [GenExpr.ident ("_kwargs")]
  , kwargs_ty := "Option<&::pyo3::types::PyDict>"
  , call_names := names
  , cb := cb
  , body := ext.body_to_result (ext.impl_arg_params spec cb) spec
  , result_conv := GenExpr.call (GenExpr.path ("::pyo3::callback::cb_convert"))
      [GenExpr.path ("::pyo3::callback::PyObjectCallbackConverter"),
       GenExpr.ident ("_py"), GenExpr.ident ("_result")] }

/-- The `for input in func.decl.inputs` loop of `add_fn_to_module`. -/
def collect_args (ext : Externals) (name : String) : List SynFnArg → Except String (List MethodFnArg)
  | [] => Except.ok []
  | input :: rest =>
      match wrap_fn_argument ext input name with
      | Except.error e => Except.error e
      | Except.ok none => collect_args ext name rest
      | Except.ok (some a) =>
          match collect_args ext name rest with
          | Except.error e => Except.error e
          | Except.ok l => Except.ok (a :: l)

/-- `add_fn_to_module`: builds the `FnSpec` and the
`fn #function_wrapper_ident(py) -> PyObject` template. -/
def add_fn_to_module (ext : Externals) (func : ItemFn) (python_name : String)
    (pyfn_attrs : List Argument) : Except String AddFnOut :=
  match collect_args ext func.ident func.inputs with
  | Except.error e => Except.error e
  | Except.ok arguments =>
      let ty := ext.get_return_info func.output
      let spec : FnSpec := { tp := FnType.fn, attrs := pyfn_attrs, args := arguments, output := ty }
      let wrapper := function_c_wrapper ext func.ident spec
      Except.ok
        { fn_name := function_wrapper_ident func.ident
        , param := ("py", "::pyo3::Python")
        , wrapper := wrapper
        , mdef :=
          { ml_name := python_name
          , ml_meth := PyMethodType.pyCFunctionWithKeywords wrapper
          , ml_flags := GenExpr.orFlags (GenExpr.path ("::pyo3::ffi::METH_VARARGS"))
              (GenExpr.path ("::pyo3::ffi::METH_KEYWORDS"))
          , ml_doc := ext.get_doc func.attrs true }
        , creation := GenExpr.call (GenExpr.path ("::pyo3::PyObject::from_owned_ptr_or_panic"))
            [GenExpr.ident ("py"),
             GenExpr.call (GenExpr.path ("::pyo3::ffi::PyCFunction_New"))
               [GenExpr.call (GenExpr.path ("Box::into_raw"))
                 [GenExpr.call (GenExpr.path ("Box::new"))
                   [GenExpr.methodCall (GenExpr.ident ("_def")) ("as_method_def") [] []]],
                GenExpr.call (GenExpr.path ("::std::ptr::null_mut")) []]] }

/-- `process_functions_in_module`, acting on the statement list of the
module function's block (the source rewrites `func.block.stmts` in place).
For each inner fn item carrying a pyfn attribute it emits the wrapper
definition and the `add_wrapped` registration, then the (attribute-stripped)
item itself; every other statement is pushed unchanged. -/
def process_functions_in_module (ext : Externals) : List Stmt → Except String (List Stmt)
  | [] => Except.ok []
  | stmt :: rest =>
      match stmt with
      | Stmt.itemFn f =>
          (match extract_pyfn_attrs ext f.attrs with
           | Except.error e => Except.error e
           | Except.ok (na, some (modname, pyname, fnattrs)) =>
               let f1 : ItemFn := { f with attrs := na }
               (match add_fn_to_module ext f1 pyname fnattrs with
                | Except.error e => Except.error e
                | Except.ok w =>
                    (match process_functions_in_module ext rest with
                     | Except.error e => Except.error e
                     | Except.ok out =>
                         Except.ok (Stmt.wrapperDef w ::
                           Stmt.addWrapped modname (function_wrapper_ident f.ident) ::
                           Stmt.itemFn f1 :: out)))
           | Except.ok (na, none) =>
               (match process_functions_in_module ext rest with
                | Except.error e => Except.error e
                | Except.ok out => Except.ok (Stmt.itemFn { f with attrs := na } :: out)))
      | s =>
          match process_functions_in_module ext rest with
          | Except.error e => Except.error e
          | Except.ok out => Except.ok (s :: out)

/-- The attribute list a statement itself carries (only fn items carry one in
this fragment of the syntax). -/
def stmtOwnAttrs : Stmt → List Attribute
  | Stmt.itemFn f => f.attrs
  | _ => []

/-- Spec-side description of what one original statement becomes: a
pyfn-annotated fn item becomes the synthesized wrapper definition, the
registration call on the extracted module name, and the attribute-stripped
item, in that order; every other statement stays a singleton of itself. -/
def pyfnExpansionShape (ext : Externals) (s : Stmt) (c : List Stmt) : Prop :=
  match s with
  | Stmt.itemFn f =>
      if f.attrs.any (fun a => isPyfnList a) then
        ∃ w m pn fa,
          extract_pyfn_attrs ext f.attrs =
            Except.ok (f.attrs.filter (fun a => !isPyfnList a), some (m, pn, fa)) ∧
          add_fn_to_module ext { f with attrs := f.attrs.filter (fun a => !isPyfnList a) } pn fa =
            Except.ok w ∧
          c = [Stmt.wrapperDef w,
               Stmt.addWrapped m (function_wrapper_ident f.ident),
               Stmt.itemFn { f with attrs := f.attrs.filter (fun a => !isPyfnList a) }]
      else c = [s]
  | s1 => c = [s1]

/-- Compile-time evaluation of the `concat!`/`stringify!` string expressions
appearing in the generated code. -/
def evalStr : GenExpr → Option String
  | GenExpr.strLit s => some s
  | GenExpr.stringify (GenExpr.ident s) => some s
  | GenExpr.concatM [] => some ("")
  | GenExpr.concatM (e :: es) =>
      match evalStr e, evalStr (GenExpr.concatM es) with
      | some a, some b => some (a ++ b)
      | _, _ => none
  | _ => none

/-- A concrete instantiation of the external modules, used to evaluate the
development on closed inputs. -/
def ext0 : Externals where
  parse_ident s := if s.isEmpty then none else some s
  parse_arguments _ := []
  check_arg_ty_and_optional _ _ := none
  is_ref _ _ := false
  get_return_info _ := Ty.other 0
  get_doc _ _ := GenExpr.strLit ("")
  impl_arg_params _ cb := cb
  body_to_result b _ := b

/-- A well-formed `#[pyfn(m, "foo")]` attribute. -/
def pyfnAttrA : Attribute :=
  { meta := some (Meta.list "pyfn" [NestedMeta.meta (Meta.word "m"), NestedMeta.lit (Lit.str "foo")])
  , tag := 0 }

/-- A second well-formed `#[pyfn(m2, "g2")]` attribute. -/
def pyfnAttrB : Attribute :=
  { meta := some (Meta.list "pyfn" [NestedMeta.meta (Meta.word "m2"), NestedMeta.lit (Lit.str "g2")])
  , tag := 2 }

/-- A malformed `#[pyfn()]` attribute: fewer than two parameters. -/
def pyfnAttrBad : Attribute := { meta := some (Meta.list "pyfn" []), tag := 3 }

/-- An unrelated attribute, interpreted as a bare word. -/
def plainAttr : Attribute := { meta := some (Meta.word "test"), tag := 1 }

/-- An inner fn item with no pyfn attribute. -/
def plainFn : ItemFn :=
  { attrs := [plainAttr], ident := "h", inputs := [], output := RustRet.default, body := 0 }

/-- An inner fn item with no attributes and no arguments. -/
def fnF : ItemFn := { attrs := [], ident := "f", inputs := [], output := RustRet.default, body := 0 }

/-- The `FnSpec` that `add_fn_to_module ext0 fnF` builds. -/
def spec0 : FnSpec := { tp := FnType.fn, attrs := [], args := [], output := Ty.other 0 }

/-- The wrapper record `add_fn_to_module ext0 fnF "g" []` produces. -/
def addFnOut0 : AddFnOut :=
  { fn_name := function_wrapper_ident ("f")
  , param := ("py", "::pyo3::Python")
  , wrapper := function_c_wrapper ext0 "f" spec0
  , mdef :=
    { ml_name := "g"
    , ml_meth := PyMethodType.pyCFunctionWithKeywords (function_c_wrapper ext0 "f" spec0)
    , ml_flags := GenExpr.orFlags (GenExpr.path ("::pyo3::ffi::METH_VARARGS"))
        (GenExpr.path ("::pyo3::ffi::METH_KEYWORDS"))
    , ml_doc := GenExpr.strLit ("") }
  , creation := GenExpr.call (GenExpr.path ("::pyo3::PyObject::from_owned_ptr_or_panic"))
      [GenExpr.ident ("py"),
       GenExpr.call (GenExpr.path ("::pyo3::ffi::PyCFunction_New"))
         [GenExpr.call (GenExpr.path ("Box::into_raw"))
           [GenExpr.call (GenExpr.path ("Box::new"))
             [GenExpr.methodCall (GenExpr.ident ("_def")) ("as_method_def") [] []]],
          GenExpr.call (GenExpr.path ("::std::ptr::null_mut")) []]] }

/-! ### Helper lemmas about the extraction loop -/

theorem extract_step_not_pyfn (ext : Externals) (st : ExtractSt) (a : Attribute)
    (h : isPyfnList a = false) :
    extract_step ext st a = Except.ok { st with new_attrs := st.new_attrs ++ [a] } := by
  rcases a with ⟨om, tg⟩
  cases om with
  | none => rfl
  | some m =>
    cases m with
    | word i => rfl
    | nameValue i l => rfl
    | list i nested =>
      simp only [isPyfnList] at h
      simp [extract_step, h]

theorem extract_step_ok_cases (ext : Externals) (st st1 : ExtractSt) (a : Attribute)
    (h : extract_step ext st a = Except.ok st1) :
    (isPyfnList a = false ∧ st1 = { st with new_attrs := st.new_attrs ++ [a] }) ∨
    (isPyfnList a = true ∧ wellShaped a = true ∧
      ∃ m f, pyfnNames ext a = some (m, f) ∧
        st1.modname = some m ∧ st1.fnname = some f ∧ st1.new_attrs = st.new_attrs) := by
  rcases a with ⟨om, tg⟩
  cases om with
  | none =>
    simp [extract_step] at h
    exact Or.inl ⟨rfl, h.symm⟩
  | some m =>
    cases m with
    | word i =>
      simp [extract_step] at h
      exact Or.inl ⟨rfl, h.symm⟩
    | nameValue i l =>
      simp [extract_step] at h
      exact Or.inl ⟨rfl, h.symm⟩
    | list i nested =>
      by_cases hi : (i == "pyfn") = true
      · right
        refine ⟨by simp [isPyfnList, hi], ?_⟩
        cases nested with
        | nil => simp [extract_step, hi] at h
        | cons m0 tl =>
          cases tl with
          | nil => simp [extract_step, hi] at h
          | cons m1 rest =>
            cases m0 with
            | lit l0 => simp [extract_step, hi] at h
            | meta mm =>
              cases mm with
              | list i0 n0 => simp [extract_step, hi] at h
              | nameValue i0 l0 => simp [extract_step, hi] at h
              | word m =>
                cases m1 with
                | meta mm1 => simp [extract_step, hi] at h
                | lit l1 =>
                  cases l1 with
                  | other t0 => simp [extract_step, hi] at h
                  | str s =>
                    cases hp : ext.parse_ident s with
                    | none => simp [extract_step, hi, hp] at h
                    | some f =>
                      simp [extract_step, hi, hp] at h
                      refine ⟨by simp [wellShaped], m, f, by simp [pyfnNames, hp], ?_, ?_, ?_⟩ <;>
                        rw [← h]
      · have hb : (i == "pyfn") = false := by
          cases hx : (i == "pyfn") with
          | true => exact absurd hx hi
          | false => rfl
        simp [extract_step, hb] at h
        exact Or.inl ⟨by simp [isPyfnList, hb], h.symm⟩

theorem extract_loop_ok_spec (ext : Externals) :
    ∀ (attrs : List Attribute) (st st' : ExtractSt),
      extract_loop ext st attrs = Except.ok st' →
      st'.new_attrs = st.new_attrs ++ attrs.filter (fun a => !isPyfnList a) ∧
      (∀ a ∈ attrs, isPyfnList a = true → wellShaped a = true ∧ (pyfnNames ext a).isSome = true) ∧
      (st'.modname, st'.fnname) = lastNames ext attrs (st.modname, st.fnname) := by
  intro attrs
  induction attrs with
  | nil =>
    intro st st' h
    simp only [extract_loop] at h
    cases h
    simp [lastNames]
  | cons a rest ih =>
    intro st st' h
    simp only [extract_loop] at h
    cases hs : extract_step ext st a with
    | error e => rw [hs] at h; cases h
    | ok st1 =>
      rw [hs] at h
      obtain ⟨ih1, ih2, ih3⟩ := ih st1 st' h
      rcases extract_step_ok_cases ext st st1 a hs with ⟨hpy, rfl⟩ | ⟨hpy, hws, m, f, hn, hmod, hfn, hnew⟩
      · refine ⟨?_, ?_, ?_⟩
        · rw [ih1]; simp [List.filter_cons, hpy]
        · intro a1 ha1 hpa1
          rcases List.mem_cons.mp ha1 with rfl | ha1
          · rw [hpy] at hpa1; cases hpa1
          · exact ih2 a1 ha1 hpa1
        · rw [ih3]; simp [lastNames, hpy]
      · refine ⟨?_, ?_, ?_⟩
        · rw [ih1, hnew]; simp [List.filter_cons, hpy]
        · intro a1 ha1 hpa1
          rcases List.mem_cons.mp ha1 with rfl | ha1
          · exact ⟨hws, by rw [hn]; rfl⟩
          · exact ih2 a1 ha1 hpa1
        · rw [ih3, hmod, hfn]; simp [lastNames, hpy, hn]

theorem extract_loop_no_pyfn (ext : Externals) :
    ∀ (attrs : List Attribute) (st : ExtractSt),
      (∀ a ∈ attrs, isPyfnList a = false) →
      extract_loop ext st attrs = Except.ok { st with new_attrs := st.new_attrs ++ attrs } := by
  intro attrs
  induction attrs with
  | nil => intro st h; simp [extract_loop]
  | cons a rest ih =>
    intro st h
    have ha := h a (List.mem_cons_self a rest)
    simp only [extract_loop, extract_step_not_pyfn ext st a ha]
    rw [ih _ (fun a1 ha1 => h a1 (List.mem_cons_of_mem a ha1))]
    simp

theorem lastNames_no_pyfn (ext : Externals) :
    ∀ (attrs : List Attribute) (p : Option String × Option String),
      (∀ a ∈ attrs, isPyfnList a = false) → lastNames ext attrs p = p := by
  intro attrs
  induction attrs with
  | nil => intro p h; rfl
  | cons a rest ih =>
    intro p h
    have ha := h a (List.mem_cons_self a rest)
    simp [lastNames, ha, ih _ (fun a1 ha1 => h a1 (List.mem_cons_of_mem a ha1))]

theorem lastNames_isSome_of_any (ext : Externals) :
    ∀ (attrs : List Attribute) (p : Option String × Option String),
      (∀ a ∈ attrs, isPyfnList a = true → (pyfnNames ext a).isSome = true) →
      attrs.any (fun a => isPyfnList a) = true →
      ∃ m f, lastNames ext attrs p = (some m, some f) := by
  intro attrs
  induction attrs with
  | nil => intro p h hany; cases hany
  | cons a rest ih =>
    intro p h hany
    by_cases hpy : isPyfnList a = true
    · obtain ⟨q, hq⟩ := Option.isSome_iff_exists.mp (h a (List.mem_cons_self a rest) hpy)
      by_cases hr : rest.any (fun a => isPyfnList a) = true
      · exact ih _ (fun a1 ha1 => h a1 (List.mem_cons_of_mem a ha1)) hr
      · have hfalse : rest.any (fun a => isPyfnList a) = false := by
          cases hx : rest.any (fun a => isPyfnList a) with
          | true => exact absurd hx hr
          | false => rfl
        have hclean : ∀ a1 ∈ rest, isPyfnList a1 = false := by
          intro a1 ha1
          have hnp := List.any_eq_false.mp hfalse a1 ha1
          cases hx : isPyfnList a1 with
          | true => exact absurd hx hnp
          | false => rfl
        refine ⟨q.1, q.2, ?_⟩
        simp [lastNames, hpy, hq, lastNames_no_pyfn ext rest _ hclean]
    · have hpy1 : isPyfnList a = false := by
        cases hx : isPyfnList a with
        | true => exact absurd hx hpy
        | false => rfl
      have hr : rest.any (fun a => isPyfnList a) = true := by
        simp [List.any_cons, hpy1] at hany
        exact List.any_eq_true.mpr hany
      simp only [lastNames, hpy1]
      simp only [Bool.false_eq_true, if_false]
      exact ih p (fun a1 ha1 => h a1 (List.mem_cons_of_mem a ha1)) hr

theorem extract_unfold_ok (ext : Externals) (attrs : List Attribute) (st : ExtractSt)
    (hl : extract_loop ext { new_attrs := [], fnname := none, modname := none, fn_attrs := [] } attrs =
      Except.ok st) :
    extract_pyfn_attrs ext attrs =
      Except.ok (st.new_attrs,
        match st.modname, st.fnname with
        | some m, some f => some (m, f, st.fn_attrs)
        | _, _ => none) := by
  unfold extract_pyfn_attrs
  rw [hl]

theorem extract_unfold_error (ext : Externals) (attrs : List Attribute) (e : String)
    (hl : extract_loop ext { new_attrs := [], fnname := none, modname := none, fn_attrs := [] } attrs =
      Except.error e) :
    extract_pyfn_attrs ext attrs = Except.error e := by
  unfold extract_pyfn_attrs
  rw [hl]

theorem extract_ok_loop (ext : Externals) (attrs na : List Attribute)
    (r : Option (String × String × List Argument))
    (h : extract_pyfn_attrs ext attrs = Except.ok (na, r)) :
    ∃ st : ExtractSt,
      extract_loop ext { new_attrs := [], fnname := none, modname := none, fn_attrs := [] } attrs =
        Except.ok st ∧
      na = st.new_attrs ∧
      r = (match st.modname, st.fnname with
           | some m, some f => some (m, f, st.fn_attrs)
           | _, _ => none) := by
  cases hl : extract_loop ext { new_attrs := [], fnname := none, modname := none, fn_attrs := [] } attrs with
  | error e =>
    rw [extract_unfold_error ext attrs e hl] at h
    cases h
  | ok st =>
    have hE := (extract_unfold_ok ext attrs st hl).symm.trans h
    injection hE with hp
    injection hp with h1 h2
    exact ⟨st, rfl, h1.symm, h2.symm⟩

theorem extract_ok_new_attrs (ext : Externals) (attrs na : List Attribute)
    (r : Option (String × String × List Argument))
    (h : extract_pyfn_attrs ext attrs = Except.ok (na, r)) :
    na = attrs.filter (fun a => !isPyfnList a) := by
  obtain ⟨st, hl, h1, h2⟩ := extract_ok_loop ext attrs na r h
  have := (extract_loop_ok_spec ext attrs _ st hl).1
  rw [h1, this]
  simp

theorem extract_ok_wellShaped (ext : Externals) (attrs na : List Attribute)
    (r : Option (String × String × List Argument))
    (h : extract_pyfn_attrs ext attrs = Except.ok (na, r)) :
    ∀ a ∈ attrs, isPyfnList a = true → wellShaped a = true := by
  obtain ⟨st, hl, h1, h2⟩ := extract_ok_loop ext attrs na r h
  intro a ha hpa
  exact ((extract_loop_ok_spec ext attrs _ st hl).2.1 a ha hpa).1

theorem extract_clean_ok (ext : Externals) (attrs : List Attribute)
    (h : ∀ a ∈ attrs, isPyfnList a = false) :
    extract_pyfn_attrs ext attrs = Except.ok (attrs, none) := by
  rw [extract_unfold_ok ext attrs _ (extract_loop_no_pyfn ext attrs _ h)]
  simp

theorem extract_ok_none_clean (ext : Externals) (attrs na : List Attribute)
    (h : extract_pyfn_attrs ext attrs = Except.ok (na, none)) :
    ∀ a ∈ attrs, isPyfnList a = false := by
  obtain ⟨st, hl, h1, h2⟩ := extract_ok_loop ext attrs na none h
  obtain ⟨s1, s2, s3⟩ := extract_loop_ok_spec ext attrs _ st hl
  by_cases hany : attrs.any (fun a => isPyfnList a) = true
  · exfalso
    obtain ⟨m, f, hmf⟩ :=
      lastNames_isSome_of_any ext attrs (none, none) (fun a ha hpa => (s2 a ha hpa).2) hany
    have h3a : (st.modname, st.fnname) = (some m, some f) := by rw [s3]; exact hmf
    have hmod : st.modname = some m := congrArg Prod.fst h3a
    have hfn : st.fnname = some f := congrArg Prod.snd h3a
    rw [hmod, hfn] at h2
    cases h2
  · intro a ha
    have hfalse : attrs.any (fun a => isPyfnList a) = false := by
      cases hx : attrs.any (fun a => isPyfnList a) with
      | true => exact absurd hx hany
      | false => rfl
    have hnp := List.any_eq_false.mp hfalse a ha
    cases hx : isPyfnList a with
    | true => exact absurd hx hnp
    | false => rfl

theorem extract_ok_some_names (ext : Externals) (attrs na : List Attribute)
    (m f : String) (fa : List Argument)
    (h : extract_pyfn_attrs ext attrs = Except.ok (na, some (m, f, fa))) :
    (some m, some f) = lastNames ext attrs (none, none) := by
  obtain ⟨st, hl, h1, h2⟩ := extract_ok_loop ext attrs na (some (m, f, fa)) h
  have s3 := (extract_loop_ok_spec ext attrs _ st hl).2.2
  cases hmod : st.modname with
  | none => rw [hmod] at h2; cases h2
  | some m1 =>
    cases hfn : st.fnname with
    | none => rw [hmod, hfn] at h2; cases h2
    | some f1 =>
      rw [hmod, hfn] at h2
      injection h2 with h3
      injection h3 with hA hB
      injection hB with hB1 hB2
      rw [hmod, hfn] at s3
      rw [hA, hB1]
      exact s3

theorem extract_ok_some_any (ext : Externals) (attrs na : List Attribute)
    (m f : String) (fa : List Argument)
    (h : extract_pyfn_attrs ext attrs = Except.ok (na, some (m, f, fa))) :
    attrs.any (fun a => isPyfnList a) = true := by
  cases hx : attrs.any (fun a => isPyfnList a) with
  | true => rfl
  | false =>
    exfalso
    have hclean : ∀ a ∈ attrs, isPyfnList a = false := by
      intro a ha
      have hnp := List.any_eq_false.mp hx a ha
      cases hy : isPyfnList a with
      | true => exact absurd hy hnp
      | false => rfl
    have := (extract_clean_ok ext attrs hclean).symm.trans h
    injection this with hp
    injection hp with h1 h2
    cases h2

/-! ### Helper lemmas about `process_functions_in_module` -/

theorem process_ok_shape (ext : Externals) :
    ∀ (stmts out : List Stmt), process_functions_in_module ext stmts = Except.ok out →
      ∃ chunks, out = chunks.flatten ∧ List.Forall₂ (pyfnExpansionShape ext) stmts chunks := by
  intro stmts
  induction stmts with
  | nil =>
    intro out h
    simp only [process_functions_in_module] at h
    cases h
    exact ⟨[], rfl, List.Forall₂.nil⟩
  | cons stmt rest ih =>
    intro out h
    cases stmt with
    | itemFn f =>
      simp only [process_functions_in_module] at h
      cases hE : extract_pyfn_attrs ext f.attrs with
      | error e => rw [hE] at h; cases h
      | ok p =>
        obtain ⟨na, r⟩ := p
        have hna := extract_ok_new_attrs ext f.attrs na r hE
        cases r with
        | none =>
          rw [hE] at h
          cases hP : process_functions_in_module ext rest with
          | error e => rw [hP] at h; cases h
          | ok out1 =>
            rw [hP] at h
            cases h
            obtain ⟨chunks, hc1, hc2⟩ := ih out1 hP
            have hclean := extract_ok_none_clean ext f.attrs na hE
            have hany : f.attrs.any (fun a => isPyfnList a) = false := by
              apply List.any_eq_false.mpr
              intro a ha
              rw [hclean a ha]
              exact Bool.false_ne_true
            have hattrs : na = f.attrs := by
              rw [hna]
              apply List.filter_eq_self.mpr
              intro a ha
              rw [hclean a ha]
              rfl
            subst hattrs
            refine ⟨[Stmt.itemFn f] :: chunks, ?_, ?_⟩
            · simp [List.flatten_cons, hc1]
            · refine List.Forall₂.cons ?_ hc2
              simp [pyfnExpansionShape, hany]
        | some t =>
          obtain ⟨modname, pyname, fnattrs⟩ := t
          rw [hE] at h
          simp only [] at h
          cases hA : add_fn_to_module ext { f with attrs := na } pyname fnattrs with
          | error e => rw [hA] at h; cases h
          | ok w =>
            rw [hA] at h
            cases hP : process_functions_in_module ext rest with
            | error e => rw [hP] at h; cases h
            | ok out1 =>
              rw [hP] at h
              cases h
              obtain ⟨chunks, hc1, hc2⟩ := ih out1 hP
              have hany : f.attrs.any (fun a => isPyfnList a) = true :=
                extract_ok_some_any ext f.attrs na modname pyname fnattrs hE
              refine ⟨[Stmt.wrapperDef w,
                       Stmt.addWrapped modname (function_wrapper_ident f.ident),
                       Stmt.itemFn { f with attrs := na }] :: chunks, ?_, ?_⟩
              · simp [List.flatten_cons, hc1]
              · refine List.Forall₂.cons ?_ hc2
                rw [pyfnExpansionShape]
                rw [if_pos hany]
                refine ⟨w, modname, pyname, fnattrs, ?_, ?_, ?_⟩
                · rw [← hna]; exact hE
                · rw [← hna]; exact hA
                · rw [← hna]
    | wrapperDef w =>
      simp only [process_functions_in_module] at h
      cases hP : process_functions_in_module ext rest with
      | error e => rw [hP] at h; cases h
      | ok out1 =>
        rw [hP] at h
        cases h
        obtain ⟨chunks, hc1, hc2⟩ := ih out1 hP
        exact ⟨[Stmt.wrapperDef w] :: chunks,
          by simp [List.flatten_cons, hc1],
          List.Forall₂.cons (by simp [pyfnExpansionShape]) hc2⟩
    | addWrapped mn wn =>
      simp only [process_functions_in_module] at h
      cases hP : process_functions_in_module ext rest with
      | error e => rw [hP] at h; cases h
      | ok out1 =>
        rw [hP] at h
        cases h
        obtain ⟨chunks, hc1, hc2⟩ := ih out1 hP
        exact ⟨[Stmt.addWrapped mn wn] :: chunks,
          by simp [List.flatten_cons, hc1],
          List.Forall₂.cons (by simp [pyfnExpansionShape]) hc2⟩
    | other t =>
      simp only [process_functions_in_module] at h
      cases hP : process_functions_in_module ext rest with
      | error e => rw [hP] at h; cases h
      | ok out1 =>
        rw [hP] at h
        cases h
        obtain ⟨chunks, hc1, hc2⟩ := ih out1 hP
        exact ⟨[Stmt.other t] :: chunks,
          by simp [List.flatten_cons, hc1],
          List.Forall₂.cons (by simp [pyfnExpansionShape]) hc2⟩

theorem forall2_flatten_mem {R : Stmt → List Stmt → Prop} :
    ∀ {as : List Stmt} {bs : List (List Stmt)}, List.Forall₂ R as bs →
      ∀ s ∈ bs.flatten, ∃ a c, R a c ∧ s ∈ c := by
  intro as bs h
  induction h with
  | nil => intro s hs; cases hs
  | @cons a c as1 bs1 hR hrest ih =>
    intro s hs
    rw [List.flatten_cons] at hs
    rcases List.mem_append.mp hs with hs1 | hs1
    · exact ⟨a, c, hR, hs1⟩
    · exact ih s hs1

/-! ### Claim theorems -/

/-- C1: for every pyfn attribute whose argument list is malformed (fewer than
two parameters, first parameter not a plain identifier word, or second
parameter not a string literal), `extract_pyfn_attrs` aborts with a
compile-time panic (modelled as `Except.error`); and it returns the
(module name, python name, extra arguments) triple only when a pyfn
attribute is present and every pyfn attribute is well-formed. -/
theorem extract_pyfn_attrs_malformed_aborts (ext : Externals) (attrs : List Attribute) :
    ((∃ a ∈ attrs, isPyfnList a = true ∧ wellShaped a = false) →
        ∃ msg, extract_pyfn_attrs ext attrs = Except.error msg) ∧
    (∀ na m f fa, extract_pyfn_attrs ext attrs = Except.ok (na, some (m, f, fa)) →
        (∃ a ∈ attrs, isPyfnList a = true) ∧
        (∀ a ∈ attrs, isPyfnList a = true → wellShaped a = true)) := by
  constructor
  · rintro ⟨a, ha, hpy, hbad⟩
    cases hE : extract_pyfn_attrs ext attrs with
    | error e => exact ⟨e, rfl⟩
    | ok res =>
      exfalso
      obtain ⟨na, r⟩ := res
      have hws := extract_ok_wellShaped ext attrs na r hE a ha hpy
      rw [hws] at hbad
      cases hbad
  · intro na m f fa h
    refine ⟨?_, fun a ha hpa => extract_ok_wellShaped ext attrs na _ h a ha hpa⟩
    have hany := extract_ok_some_any ext attrs na m f fa h
    obtain ⟨a, ha, hpa⟩ := List.any_eq_true.mp hany
    exact ⟨a, ha, hpa⟩

/-- C2: `wrap_fn_argument` skips self-by-reference and self-by-value
arguments (returns `none`), panics on non-identifier patterns and on ignored
and inferred arguments, and returns `some` `method::FnArg` for every captured
identifier argument. -/
theorem wrap_fn_argument_cases (ext : Externals) (name : String) :
    (∀ t, wrap_fn_argument ext (SynFnArg.selfRef t) name = Except.ok none) ∧
    (∀ t, wrap_fn_argument ext (SynFnArg.selfValue t) name = Except.ok none) ∧
    (∀ t ty, ∃ msg, wrap_fn_argument ext (SynFnArg.captured (Pat.other t) ty) name =
        Except.error msg) ∧
    (∀ t, ∃ msg, wrap_fn_argument ext (SynFnArg.ignored t) name = Except.error msg) ∧
    (∀ t, ∃ msg, wrap_fn_argument ext (SynFnArg.inferred t) name = Except.error msg) ∧
    (∀ mu br id ty, wrap_fn_argument ext (SynFnArg.captured (Pat.identP mu br id) ty) name =
        Except.ok (some
          { name := id, mutability := mu, by_ref := br, ty := ty,
            optional := ext.check_arg_ty_and_optional name ty,
            py := isPythonPath ty, reference := ext.is_ref name ty })) :=
  ⟨fun t => rfl, fun t => rfl, fun t ty => ⟨"unsupported argument", rfl⟩,
   fun t => ⟨"ignored argument", rfl⟩, fun t => ⟨"inferred argument", rfl⟩,
   fun mu br id ty => rfl⟩

/-- C3: `py3_init` emits exactly one `#[no_mangle]` `unsafe extern "C"`
item named `PyInit_` + module name, returning `*mut PyObject`, whose body
calls `make_module` with the nul-terminated module name, the doc literal and
the init fn; `py2_init` emits one named `init` + module name with no return
type, calling the same `make_module`. -/
theorem py_init_entry_points (fnname name : String) (doc : Lit) :
    (∃ c : CAbiFn, py3_init fnname name doc = [c] ∧ c.no_mangle = true ∧
       c.is_unsafe = true ∧ c.extern_abi = some ("C") ∧
       c.name = "PyInit_" ++ name ∧ c.ret = some ("*mut ::pyo3::ffi::PyObject") ∧
       ∃ marg, c.body = GenExpr.call (GenExpr.path ("::pyo3::derive_utils::make_module"))
           [marg, GenExpr.litE doc, GenExpr.ident fnname] ∧
         evalStr marg = some (name ++ "\x00")) ∧
    (∃ c : CAbiFn, py2_init fnname name doc = [c] ∧ c.no_mangle = true ∧
       c.is_unsafe = true ∧ c.extern_abi = some ("C") ∧
       c.name = "init" ++ name ∧ c.ret = none ∧
       ∃ marg, c.body = GenExpr.call (GenExpr.path ("::pyo3::derive_utils::make_module"))
           [marg, GenExpr.litE doc, GenExpr.ident fnname] ∧
         evalStr marg = some (name ++ "\x00")) := by
  constructor
  · refine ⟨_, rfl, rfl, rfl, rfl, rfl, rfl, ⟨_, rfl, ?_⟩⟩
    simp [evalStr]
  · refine ⟨_, rfl, rfl, rfl, rfl, rfl, rfl, ⟨_, rfl, ?_⟩⟩
    simp [evalStr]

/-- C4: `process_functions_in_module` is a single left-to-right pass: on
success the output is the concatenation, in the original statement order, of
per-statement expansions, where a pyfn-annotated fn item is replaced by the
synthesized wrapper definition, the `add_wrapped` registration on the
extracted module name, and the attribute-stripped item (so the synthesized
statements sit immediately before the item), and every other statement is
passed through unchanged as a singleton. -/
theorem process_functions_in_module_order (ext : Externals) (stmts out : List Stmt)
    (h : process_functions_in_module ext stmts = Except.ok out) :
    ∃ chunks, out = chunks.flatten ∧ List.Forall₂ (pyfnExpansionShape ext) stmts chunks :=
  process_ok_shape ext stmts out h

/-- C6: the transformation is deterministic — every pass of the embedding is
a pure function of the input syntax tree (and of the fixed external helper
functions), so equal inputs give equal outputs. -/
theorem codegen_deterministic (ext1 ext2 : Externals) (hext : ext1 = ext2) :
    (∀ s1 s2 : List Stmt, s1 = s2 →
       process_functions_in_module ext1 s1 = process_functions_in_module ext2 s2) ∧
    (∀ f1 f2 n1 n2 : String, ∀ d1 d2 : Lit, f1 = f2 → n1 = n2 → d1 = d2 →
       py3_init f1 n1 d1 = py3_init f2 n2 d2 ∧ py2_init f1 n1 d1 = py2_init f2 n2 d2) ∧
    (∀ g1 g2 : ItemFn, ∀ p1 p2 : String, ∀ a1 a2 : List Argument,
       g1 = g2 → p1 = p2 → a1 = a2 →
       add_fn_to_module ext1 g1 p1 a1 = add_fn_to_module ext2 g2 p2 a2) := by
  subst hext
  refine ⟨?_, ?_, ?_⟩
  · intro s1 s2 hs; rw [hs]
  · intro f1 f2 n1 n2 d1 d2 h1 h2 h3; rw [h1, h2, h3]; exact ⟨rfl, rfl⟩
  · intro g1 g2 p1 p2 a1 a2 h1 h2 h3; rw [h1, h2, h3]

/-- C7: the pyfn annotation is consumed: the attribute list written back by
`extract_pyfn_attrs` is exactly the original list with all pyfn list
attributes removed (all other attributes kept in their original order), and
consequently no statement emitted by `process_functions_in_module` carries a
pyfn list attribute of its own. -/
theorem pyfn_attr_consumed (ext : Externals) :
    (∀ attrs na r, extract_pyfn_attrs ext attrs = Except.ok (na, r) →
        na = attrs.filter (fun a => !isPyfnList a)) ∧
    (∀ stmts out, process_functions_in_module ext stmts = Except.ok out →
        ∀ s ∈ out, ∀ a ∈ stmtOwnAttrs s, isPyfnList a = false) := by
  refine ⟨fun attrs na r h => extract_ok_new_attrs ext attrs na r h, ?_⟩
  intro stmts out h s hs a ha
  obtain ⟨chunks, rfl, hf⟩ := process_ok_shape ext stmts out h
  obtain ⟨a0, c, hR, hsc⟩ := forall2_flatten_mem hf s hs
  cases a0 with
  | itemFn f =>
    simp only [pyfnExpansionShape] at hR
    by_cases hany : f.attrs.any (fun a => isPyfnList a) = true
    · rw [if_pos hany] at hR
      obtain ⟨w, mn, pn, fal, h1, h2, rfl⟩ := hR
      simp only [List.mem_cons, List.not_mem_nil, or_false] at hsc
      rcases hsc with rfl | rfl | rfl
      · simp only [stmtOwnAttrs] at ha; cases ha
      · simp only [stmtOwnAttrs] at ha; cases ha
      · simp only [stmtOwnAttrs] at ha
        have hmem := (List.mem_filter.mp ha).2
        cases hx : isPyfnList a with
        | false => rfl
        | true => rw [hx] at hmem; cases hmem
    · have hfalse : f.attrs.any (fun a => isPyfnList a) = false := by
        cases hx : f.attrs.any (fun a => isPyfnList a) with
        | true => exact absurd hx hany
        | false => rfl
      rw [if_neg hany] at hR
      subst hR
      simp only [List.mem_singleton] at hsc
      subst hsc
      simp only [stmtOwnAttrs] at ha
      have hnp := List.any_eq_false.mp hfalse a ha
      cases hx : isPyfnList a with
      | true => exact absurd hx hnp
      | false => rfl
  | wrapperDef w =>
    simp only [pyfnExpansionShape] at hR
    subst hR
    simp only [List.mem_singleton] at hsc
    subst hsc
    simp only [stmtOwnAttrs] at ha
    cases ha
  | addWrapped mn wn =>
    simp only [pyfnExpansionShape] at hR
    subst hR
    simp only [List.mem_singleton] at hsc
    subst hsc
    simp only [stmtOwnAttrs] at ha
    cases ha
  | other t =>
    simp only [pyfnExpansionShape] at hR
    subst hR
    simp only [List.mem_singleton] at hsc
    subst hsc
    simp only [stmtOwnAttrs] at ha
    cases ha

/-- C9: in the generated call of `function_c_wrapper`, arguments are passed
in declaration order; the i-th argument (0-based, counting all arguments of
the spec) is named `arg` + i, except that arguments whose type is the GIL
token `Python` are replaced by `_py`; the `cb` expression applies
`return_type_into_py_result` to the call of the wrapped fn on those names. -/
theorem function_c_wrapper_arg_names (ext : Externals) (name : String) (spec : FnSpec) (i : Nat) :
    (function_c_wrapper ext name spec).call_names[i]? =
      (spec.args[i]?).map (fun a => if a.py then ("_py") else ("arg") ++ toString i) ∧
    (function_c_wrapper ext name spec).cb =
      GenExpr.call (GenExpr.path ("::pyo3::ReturnTypeIntoPyResult::return_type_into_py_result"))
        [GenExpr.call (GenExpr.ident name)
          (((function_c_wrapper ext name spec).call_names).map GenExpr.ident)] := by
  constructor
  · have hcn : (function_c_wrapper ext name spec).call_names =
        spec.args.enum.map (fun item => if item.2.py then ("_py") else ("arg") ++ toString item.1) :=
      rfl
    rw [hcn, List.getElem?_map, List.getElem?_enum]
    cases spec.args[i]? with
    | none => rfl
    | some a => rfl
  · rfl

/-- C10: `extract_pyfn_attrs` returns `none` exactly when the attribute list
contains no pyfn list attribute, and then writes the attribute list back
unchanged; when it returns a triple, the module and python names are those of
the last pyfn attribute (later ones overwrite earlier ones) and the
written-back list contains no pyfn attribute. -/
theorem extract_pyfn_attrs_none_iff (ext : Externals) (attrs : List Attribute) :
    ((∃ na, extract_pyfn_attrs ext attrs = Except.ok (na, none)) ↔
      (∀ a ∈ attrs, isPyfnList a = false)) ∧
    (∀ na, extract_pyfn_attrs ext attrs = Except.ok (na, none) → na = attrs) ∧
    (∀ na m f fa, extract_pyfn_attrs ext attrs = Except.ok (na, some (m, f, fa)) →
      (some m, some f) = lastNames ext attrs (none, none) ∧
      (∀ a ∈ na, isPyfnList a = false)) := by
  refine ⟨⟨?_, ?_⟩, ?_, ?_⟩
  · rintro ⟨na, h⟩
    exact extract_ok_none_clean ext attrs na h
  · intro h
    exact ⟨attrs, extract_clean_ok ext attrs h⟩
  · intro na h
    have hclean := extract_ok_none_clean ext attrs na h
    rw [extract_ok_new_attrs ext attrs na none h]
    apply List.filter_eq_self.mpr
    intro a ha
    rw [hclean a ha]
    rfl
  · intro na m f fa h
    refine ⟨extract_ok_some_names ext attrs na m f fa h, ?_⟩
    intro a ha
    rw [extract_ok_new_attrs ext attrs na _ h] at ha
    have hmem := (List.mem_filter.mp ha).2
    cases hx : isPyfnList a with
    | false => rfl
    | true => rw [hx] at hmem; cases hmem

theorem trimAux_none (p s : List Char) (n : Nat) (h : stripPrefixL p s = none) :
    trimStartMatchesAux p n s = s := by
  cases n with
  | zero => rfl
  | succ k =>
    by_cases hp : p.isEmpty = true
    · simp [trimStartMatchesAux, hp]
    · simp [trimStartMatchesAux, hp, h]

/-- C8: `function_wrapper_ident` prepends `__pyo3_get_function_` to the
identifier text with its leading raw-identifier prefix `r#` trimmed, so a raw
identifier `r#`+s and the plain identifier s map to the same wrapper ident
(for identifier cores s that do not themselves start with `r#`). -/
theorem function_wrapper_ident_strips_raw (s : String)
    (h : stripPrefixL ("r#").data s.data = none) :
    function_wrapper_ident s = "__pyo3_get_function_" ++ s ∧
    function_wrapper_ident ("r#" ++ s) = "__pyo3_get_function_" ++ s := by
  have hmk : String.mk s.data = s := by cases s; rfl
  constructor
  · unfold function_wrapper_ident trimStartMatches
    rw [trimAux_none _ _ _ h, hmk]
  · unfold function_wrapper_ident trimStartMatches
    have hdata : ("r#" ++ s).data = 'r' :: '#' :: s.data := by
      simp [String.data_append]
    have hp2 : ("r#").data = ['r', '#'] := rfl
    rw [hdata, hp2]
    rw [List.length_cons, List.length_cons]
    rw [trimStartMatchesAux]
    have hstrip : stripPrefixL ['r', '#'] ('r' :: '#' :: s.data) = some s.data := by
      simp [stripPrefixL]
    rw [hstrip]
    simp only [List.isEmpty_cons, if_false, Bool.false_eq_true]
    rw [hp2] at h
    rw [trimAux_none _ _ _ h, hmk]

/-- C5: `add_fn_to_module` registers the generated C wrapper as a
`PyCFunctionWithKeywords` with `ml_flags = METH_VARARGS | METH_KEYWORDS` and
`ml_name` the python name; the generated `__wrap` entry point converts the
positional tuple with `from_borrowed_ptr::<PyTuple>` and the optional keyword
dict with `from_borrowed_ptr_or_opt`, returns `*mut PyObject`, and translates
the call result through `cb_convert`; the wrapper is `function_c_wrapper` on
the collected argument spec. -/
theorem add_fn_to_module_registration (ext : Externals) (func : ItemFn)
    (python_name : String) (pyfn_attrs : List Argument) (w : AddFnOut)
    (h : add_fn_to_module ext func python_name pyfn_attrs = Except.ok w) :
    w.mdef.ml_flags = GenExpr.orFlags (GenExpr.path ("::pyo3::ffi::METH_VARARGS"))
        (GenExpr.path ("::pyo3::ffi::METH_KEYWORDS")) ∧
    w.mdef.ml_meth = PyMethodType.pyCFunctionWithKeywords w.wrapper ∧
    w.mdef.ml_name = python_name ∧
    (∃ args, collect_args ext func.ident func.inputs = Except.ok args ∧
      w.wrapper = function_c_wrapper ext func.ident
        { tp := FnType.fn, attrs := pyfn_attrs, args := args,
          output := ext.get_return_info func.output }) ∧
    w.wrapper.args_conv = GenExpr.methodCall (GenExpr.ident ("_py")) ("from_borrowed_ptr")
        ["::pyo3::types::PyTuple"] [GenExpr.ident ("_args")] ∧
    w.wrapper.kwargs_conv = GenExpr.methodCall (GenExpr.ident ("_py")) ("from_borrowed_ptr_or_opt")
        [] [GenExpr.ident ("_kwargs")] ∧
    w.wrapper.kwargs_ty = "Option<&::pyo3::types::PyDict>" ∧
    w.wrapper.ret_ty = "*mut ::pyo3::ffi::PyObject" ∧
    w.wrapper.result_conv = GenExpr.call (GenExpr.path ("::pyo3::callback::cb_convert"))
        [GenExpr.path ("::pyo3::callback::PyObjectCallbackConverter"),
         GenExpr.ident ("_py"), GenExpr.ident ("_result")] := by
  cases hc : collect_args ext func.ident func.inputs with
  | error e =>
    exfalso
    unfold add_fn_to_module at h
    rw [hc] at h
    cases h
  | ok args =>
    have hok : add_fn_to_module ext func python_name pyfn_attrs = Except.ok
        { fn_name := function_wrapper_ident func.ident
        , param := ("py", "::pyo3::Python")
        , wrapper := function_c_wrapper ext func.ident
            { tp := FnType.fn, attrs := pyfn_attrs, args := args,
              output := ext.get_return_info func.output }
        , mdef :=
          { ml_name := python_name
          , ml_meth := PyMethodType.pyCFunctionWithKeywords (function_c_wrapper ext func.ident
              { tp := FnType.fn, attrs := pyfn_attrs, args := args,
                output := ext.get_return_info func.output })
          , ml_flags := GenExpr.orFlags (GenExpr.path ("::pyo3::ffi::METH_VARARGS"))
              (GenExpr.path ("::pyo3::ffi::METH_KEYWORDS"))
          , ml_doc := ext.get_doc func.attrs true }
        , creation := GenExpr.call (GenExpr.path ("::pyo3::PyObject::from_owned_ptr_or_panic"))
            [GenExpr.ident ("py"),
             GenExpr.call (GenExpr.path ("::pyo3::ffi::PyCFunction_New"))
               [GenExpr.call (GenExpr.path ("Box::into_raw"))
                 [GenExpr.call (GenExpr.path ("Box::new"))
                   [GenExpr.methodCall (GenExpr.ident ("_def")) ("as_method_def") [] []]],
                GenExpr.call (GenExpr.path ("::std::ptr::null_mut")) []]] } := by
      unfold add_fn_to_module
      rw [hc]
    have hw := (hok.symm.trans h)
    injection hw with hw1
    subst hw1
    exact ⟨rfl, rfl, rfl, ⟨args, rfl, rfl⟩, rfl, rfl, rfl, rfl, rfl⟩

/-! ### Witnesses: the claim theorems applied at concrete closed inputs -/

/-- C1 witness: a `#[pyfn()]` with no parameters panics; a well-formed
`#[pyfn(m, "foo")]` yields a triple, with every pyfn attribute well-shaped. -/
theorem extract_pyfn_attrs_malformed_aborts_witness :
    (∃ msg, extract_pyfn_attrs ext0 [pyfnAttrBad] = Except.error msg) ∧
    ((∃ a ∈ [pyfnAttrA], isPyfnList a = true) ∧
      (∀ a ∈ [pyfnAttrA], isPyfnList a = true → wellShaped a = true)) :=
  ⟨(extract_pyfn_attrs_malformed_aborts ext0 [pyfnAttrBad]).1
      ⟨pyfnAttrBad, List.mem_singleton.mpr rfl, rfl, rfl⟩,
   (extract_pyfn_attrs_malformed_aborts ext0 [pyfnAttrA]).2 [] "m" "foo" [] rfl⟩

/-- C4 witness: a module body with a plain fn item and an opaque statement is
passed through unchanged, chunk by chunk. -/
theorem process_functions_in_module_order_witness :
    ∃ chunks, [Stmt.itemFn plainFn, Stmt.other 3] = chunks.flatten ∧
      List.Forall₂ (pyfnExpansionShape ext0) [Stmt.itemFn plainFn, Stmt.other 3] chunks :=
  process_functions_in_module_order ext0 [Stmt.itemFn plainFn, Stmt.other 3]
    [Stmt.itemFn plainFn, Stmt.other 3] rfl

/-- C5 witness: the wrapper generated for the no-argument fn `f` registers a
`PyCFunctionWithKeywords` with `ml_flags = METH_VARARGS | METH_KEYWORDS`. -/
theorem add_fn_to_module_registration_witness :
    addFnOut0.mdef.ml_flags = GenExpr.orFlags (GenExpr.path ("::pyo3::ffi::METH_VARARGS"))
        (GenExpr.path ("::pyo3::ffi::METH_KEYWORDS")) ∧
    addFnOut0.mdef.ml_meth = PyMethodType.pyCFunctionWithKeywords addFnOut0.wrapper :=
  ⟨(add_fn_to_module_registration ext0 fnF "g" [] addFnOut0 rfl).1,
   (add_fn_to_module_registration ext0 fnF "g" [] addFnOut0 rfl).2.1⟩

/-- C6 witness: determinism instantiated at closed inputs. -/
theorem codegen_deterministic_witness :
    process_functions_in_module ext0 [Stmt.other 0] =
      process_functions_in_module ext0 [Stmt.other 0] ∧
    py3_init "a" "b" (Lit.str ("c")) = py3_init "a" "b" (Lit.str ("c")) ∧
    add_fn_to_module ext0 fnF "g" [] = add_fn_to_module ext0 fnF "g" [] :=
  ⟨(codegen_deterministic ext0 ext0 rfl).1 [Stmt.other 0] [Stmt.other 0] rfl,
   ((codegen_deterministic ext0 ext0 rfl).2.1 "a" "a" "b" "b" (Lit.str ("c")) (Lit.str ("c"))
      rfl rfl rfl).1,
   (codegen_deterministic ext0 ext0 rfl).2.2 fnF fnF "g" "g" [] [] rfl rfl rfl⟩

/-- C7 witness: extraction on `[pyfnAttrA, plainAttr]` writes back exactly
the non-pyfn attribute; processing a pyfn-free module body leaves no pyfn
attribute on any emitted statement. -/
theorem pyfn_attr_consumed_witness :
    ([plainAttr] = [pyfnAttrA, plainAttr].filter (fun a => !isPyfnList a)) ∧
    (∀ s ∈ [Stmt.itemFn plainFn], ∀ a ∈ stmtOwnAttrs s, isPyfnList a = false) :=
  ⟨(pyfn_attr_consumed ext0).1 [pyfnAttrA, plainAttr] [plainAttr] (some ("m", "foo", [])) rfl,
   (pyfn_attr_consumed ext0).2 [Stmt.itemFn plainFn] [Stmt.itemFn plainFn] rfl⟩

/-- C8 witness: `foo` and `r#foo` map to the same wrapper identifier. -/
theorem function_wrapper_ident_strips_raw_witness :
    function_wrapper_ident ("foo") = "__pyo3_get_function_" ++ "foo" ∧
    function_wrapper_ident ("r#" ++ "foo") = "__pyo3_get_function_" ++ "foo" :=
  function_wrapper_ident_strips_raw "foo" (by decide)

/-- C10 witness: a pyfn-free list returns `none`; with two pyfn attributes
the returned names are those of the last one. -/
theorem extract_pyfn_attrs_none_iff_witness :
    (∃ na, extract_pyfn_attrs ext0 [plainAttr] = Except.ok (na, none)) ∧
    ((some ("m2"), some ("g2")) = lastNames ext0 [pyfnAttrA, pyfnAttrB] (none, none) ∧
      (∀ a ∈ ([] : List Attribute), isPyfnList a = false)) :=
  ⟨(extract_pyfn_attrs_none_iff ext0 [plainAttr]).1.mpr
      (by intro a ha; rw [List.mem_singleton] at ha; subst ha; rfl),
   (extract_pyfn_attrs_none_iff ext0 [pyfnAttrA, pyfnAttrB]).2.2 [] "m2" "g2" [] rfl⟩
